import Mathlib

/-!
Verification development for the cascade-monitoring server (`src/server.js`).

The file shallowly embeds the parts of the program that the properties
below speak about:

* `hashString` — the 32-bit string hash used for session identity and
  content fingerprints (lines 26-34 of the source);
* the Transport Session built by `connectCDP` (lines 56-95): the `call`
  request-id allocator, the per-call message handlers, and the
  context-lifecycle listener;
* `extractMetadata` (lines 97-177): direct-context fast path with
  fallback to sequential context search;
* `getJson` (lines 37-52) and the target-collection phase of
  `discover` (lines 306-390);
* the reconciliation core of `discover` (reuse / reconnect / cleanup)
  and its end-of-cycle broadcast decision;
* the per-entry snapshot update of `updateSnapshots` (lines 420-436).

JavaScript strings are modelled as Lean `String`s; `charCodeAt` is
modelled by the character's code point, which coincides with the UTF-16
code unit for strings within the basic multilingual plane (every string
the program hashes in practice).  Remote evaluation results, HTTP
responses and socket events are supplied by explicit oracles/inputs, so
every definition is executable.
-/

/-! ### The string hash (source lines 26-34)

`hashString` iterates `hash = ((hash << 5) - hash) + charCode; hash = hash & hash`
over the string.  In JavaScript `<<` and `&` coerce to signed 32-bit
integers, so each step is exact double arithmetic followed by a
truncation to the range `[-2^31, 2^31)`; the result is rendered in
base 36 (`Number.prototype.toString(36)`), with a leading `-` for
negative values. -/

/-- JavaScript `ToInt32`: reduce an integer to the range `[-2^31, 2^31)`. -/
def toInt32 (n : Int) : Int :=
  let m := n % 4294967296
  if m < 2147483648 then m else m - 4294967296

/-- One iteration of the hash loop: `hash = ((hash << 5) - hash) + c; hash & hash`. -/
def hashStep (hash : Int) (c : Nat) : Int :=
  toInt32 (toInt32 (hash * 32) - hash + (c : Int))

/-- The hash accumulator over the sequence of code units, starting from 0. -/
def hashInt (codes : List Nat) : Int :=
  codes.foldl hashStep 0

/-- Digit character for base-36 rendering (`0`-`9`, `a`-`z`). -/
def digit36 (n : Nat) : Char :=
  if n < 10 then Char.ofNat (48 + n) else Char.ofNat (87 + n)

/-- Fuel-driven base-36 digit accumulation (most significant digit first). -/
def natToBase36Aux : Nat → Nat → List Char → List Char
  | 0, _, acc => acc
  | fuel + 1, n, acc =>
      if n < 36 then digit36 n :: acc
      else natToBase36Aux fuel (n / 36) (digit36 (n % 36) :: acc)

/-- Render a natural number in base 36, lowercase digits. -/
def natToBase36 (n : Nat) : String :=
  String.mk (natToBase36Aux (n + 1) n [])

/-- JavaScript `Number.prototype.toString(36)` on an integer value. -/
def intToBase36 (n : Int) : String :=
  if n < 0 then "-" ++ natToBase36 n.natAbs else natToBase36 n.toNat

/-- `hashString` from the source: hash the string's code units and render in base 36. -/
def hashString (s : String) : String :=
  intToBase36 (hashInt (s.data.map Char.toNat))

/-! ### Transport Session (`connectCDP`, source lines 56-95)

`connectCDP` installs listeners for `open`, `error` and `message` only.
Each `call` allocates `id = idCounter++`, registers a per-call `message`
handler that matches replies by `data.id === id`, and sends the frame.
A separate `message` listener tracks `Runtime.executionContextCreated`
and `Runtime.executionContextDestroyed` notifications. -/

/-- An execution-context descriptor (`data.params.context`); `origin`
stands for the descriptor fields other than the id. -/
structure CdpContext where
  id : Nat
  origin : String
deriving DecidableEq, Repr

/-- An inbound JSON frame, with the fields the handlers inspect.
`paramsContext` models `data.params.context`; `paramsExecCtxId` models
`data.params.executionContextId`; a field is `none` when the key is
absent from the frame. -/
structure Frame where
  id : Option Nat := none
  error : Option String := none
  result : Option String := none
  method : Option String := none
  paramsContext : Option CdpContext := none
  paramsExecCtxId : Option Nat := none
deriving DecidableEq, Repr

/-- The mutable state of one Transport Session: the `idCounter` (starts
at 1), the ids whose per-call `message` handler is still registered
(in registration order), and the tracked context list. -/
structure Session where
  idCounter : Nat := 1
  pending : List Nat := []
  contexts : List CdpContext := []
deriving DecidableEq, Repr

/-- What a per-call handler does to its caller when it fires. -/
inductive Outcome where
  /-- the call's promise resolved with `data.result` -/
  | resolved (id : Nat) (result : Option String)
  /-- the call's promise rejected with `data.error` -/
  | rejected (id : Nat) (error : String)
deriving DecidableEq, Repr

/-- `call(method, params)`: allocate `id = idCounter++`, register the
per-call handler, send the frame.  `method` and `params` go onto the
wire and do not affect session state. -/
def callCDP (s : Session) (_method : String) (_params : String) : Session × Nat :=
  ({ s with idCounter := s.idCounter + 1, pending := s.pending ++ [s.idCounter] },
   s.idCounter)

/-- The `Runtime.executionContextDestroyed` branch:
`findIndex(c => c.id === executionContextId)`, then `splice(idx, 1)`
when found — removal of the first matching descriptor, no-op otherwise. -/
def removeDestroyedContext (ctxs : List CdpContext) (cid : Nat) : List CdpContext :=
  match ctxs.findIdx? (fun c => c.id == cid) with
  | some idx => ctxs.eraseIdx idx
  | none => ctxs

/-- The context-tracking `message` listener (source lines 79-89). -/
def applyNotification (ctxs : List CdpContext) (f : Frame) : List CdpContext :=
  if f.method == some "Runtime.executionContextCreated" then
    match f.paramsContext with
    | some c => ctxs ++ [c]
    | none => ctxs
  else if f.method == some "Runtime.executionContextDestroyed" then
    match f.paramsExecCtxId with
    | some cid => removeDestroyedContext ctxs cid
    | none => ctxs
  else ctxs

/-- Deliver one inbound `message` frame to every registered listener:
each per-call handler whose id equals `data.id` fires (settling its
caller) and deregisters itself; the context listener applies any
context-lifecycle notification. -/
def handleMessage (s : Session) (f : Frame) : Session × List Outcome :=
  let hits := match f.id with
    | some fid => s.pending.filter (fun p => p == fid)
    | none => []
  let outcomes := hits.map (fun p =>
    match f.error with
    | some e => Outcome.rejected p e
    | none => Outcome.resolved p f.result)
  let pending' := match f.id with
    | some fid => s.pending.filter (fun p => p != fid)
    | none => s.pending
  ({ s with pending := pending', contexts := applyNotification s.contexts f }, outcomes)

/-- Socket events after the handshake: inbound frames, connection
close, socket error. -/
inductive WsEvent where
  | message (f : Frame)
  | closedEvt
  | errorEvt
deriving DecidableEq, Repr

/-- Dispatch one socket event.  `connectCDP` registers no `close`
listener, so a close event invokes no handler; the only `error`
listener rejects the (already settled) handshake promise, so an error
event after open is likewise a no-op on the session. -/
def handleEvent (s : Session) : WsEvent → Session × List Outcome
  | .message f => handleMessage s f
  | .closedEvt => (s, [])
  | .errorEvt => (s, [])

/-- Dispatch a sequence of socket events in order, accumulating caller outcomes. -/
def handleEvents (s : Session) : List WsEvent → Session × List Outcome
  | [] => (s, [])
  | e :: rest =>
      let r := handleEvent s e
      let r2 := handleEvents r.1 rest
      (r2.1, r.2 ++ r2.2)

/-- The id of the caller an outcome settles. -/
def outcomeId : Outcome → Nat
  | .resolved i _ => i
  | .rejected i _ => i

/-- Whether a socket event is an inbound frame carrying reply id `i`. -/
def isReplyFor (i : Nat) : WsEvent → Bool
  | .message f => f.id == some i
  | .closedEvt => false
  | .errorEvt => false

/-- The frame of a `Runtime.executionContextDestroyed` notification for
context `cid`. -/
def destroyedFrame (cid : Nat) : Frame :=
  { method := some "Runtime.executionContextDestroyed", paramsExecCtxId := some cid }

/-! ### `extractMetadata` (source lines 97-177)

The in-page script is opaque; what matters to the claims is the control
flow around `Runtime.evaluate`.  A call on a given context id either
rejects (the per-call handler saw `data.error`) or resolves; on
resolution `res.result?.value` is either absent or a value whose
`found` field drives the flow.  The evaluation behaviour is supplied as
an oracle from context id to outcome. -/

/-- The script's return value as `extractMetadata` inspects it:
the `found` flag plus the remaining payload, opaque here. -/
structure EvalVal where
  found : Bool
  payload : String := ""
deriving DecidableEq, Repr

/-- Outcome of `cdp.call("Runtime.evaluate", …)` on one context:
rejection, or resolution with `res.result?.value` (absent = `none`). -/
inductive EvalOutcome where
  | err (msg : String)
  | ok (value : Option EvalVal)
deriving DecidableEq, Repr

/-- The fields of the `cdp` object that `extractMetadata` reads and writes. -/
structure CdpState where
  rootContextId : Option Nat
  contexts : List CdpContext
deriving DecidableEq, Repr

/-- The sequential context search (source lines 168-175): evaluate in
each known context in list order, return the first resolved value whose
`found` is true; rejections and not-found results are skipped. -/
def searchContexts (oracle : Nat → EvalOutcome) : List CdpContext → Option (EvalVal × Nat)
  | [] => none
  | ctx :: rest =>
      match oracle ctx.id with
      | .ok (some v) =>
          if v.found then some (v, ctx.id) else searchContexts oracle rest
      | _ => searchContexts oracle rest

/-- `extractMetadata`: when a root context id is remembered, try it
first; a resolved-and-found value returns directly; a resolved but
not-found (or value-less) reply falls through to the search with the
remembered id left in place; only a rejected call clears
`cdp.rootContextId` (source line 163) before the search. -/
def extractMetadata (cdp : CdpState) (oracle : Nat → EvalOutcome) :
    CdpState × Option (EvalVal × Nat) :=
  match cdp.rootContextId with
  | some rid =>
      match oracle rid with
      | .ok (some v) =>
          if v.found then (cdp, some (v, rid))
          else (cdp, searchContexts oracle cdp.contexts)
      | .ok none => (cdp, searchContexts oracle cdp.contexts)
      | .err _ =>
          let cdp2 := { cdp with rootContextId := none }
          (cdp2, searchContexts oracle cdp2.contexts)
  | none => (cdp, searchContexts oracle cdp.contexts)

/-! ### `getJson` and target collection (source lines 37-52 and 306-313)

`getJson` resolves the parsed JSON body on success, and resolves `[]`
on a JSON parse error, a network error, or the 2-second timeout — it
never rejects.  `discover` then runs `list.filter(t => …)`; when the
resolved value is valid JSON but not an array, `.filter` is not a
function and the resulting `TypeError` rejects the `Promise.all`,
aborting the whole cycle. -/

/-- One advertisement record from a `/json/list` response; a field is
`none` when the key is absent. -/
structure TargetAd where
  url : Option String := none
  title : Option String := none
  webSocketDebuggerUrl : String := ""
deriving DecidableEq, Repr

/-- A parsed JSON body: an array of advertisement records, or any other
JSON value. -/
inductive JsonValue where
  | arr (items : List TargetAd)
  | nonArray (descr : String)
deriving DecidableEq, Repr

/-- What the HTTP GET produced: a response body whose parse either
succeeded (`some v`) or threw (`none`), a network error, or the
2000 ms timeout. -/
inductive HttpResult where
  | response (parsed : Option JsonValue)
  | netError
  | timedOut
deriving DecidableEq, Repr

/-- `getJson`: resolve the parsed body; resolve `[]` on parse error,
network error, or timeout.  Every branch resolves. -/
def getJson : HttpResult → JsonValue
  | .response (some v) => v
  | .response none => .arr []
  | .netError => .arr []
  | .timedOut => .arr []

/-- Substring test used to model JavaScript `String.prototype.includes`. -/
def strContainsAux (pat : List Char) : List Char → Bool
  | [] => pat.isEmpty
  | c :: rest => pat.isPrefixOf (c :: rest) || strContainsAux pat rest

/-- JavaScript `s.includes(pat)`. -/
def strContains (s pat : String) : Bool :=
  strContainsAux pat.data s.data

/-- The workbench filter:
`t.url?.includes('workbench.html') || t.title?.includes('workbench')`,
with an absent field contributing `false`. -/
def isWorkbench (t : TargetAd) : Bool :=
  (match t.url with
   | some u => strContains u "workbench.html"
   | none => false) ||
  (match t.title with
   | some ti => strContains ti "workbench"
   | none => false)

/-- One endpoint's contribution of candidates: filter the resolved
array; a non-array resolved value raises `TypeError` (`list.filter` is
not a function), modelled as `Except.error`. -/
def collectFromEndpoint (r : HttpResult) : Except String (List TargetAd) :=
  match getJson r with
  | .arr items => .ok (items.filter isWorkbench)
  | .nonArray _ => .error "TypeError: list.filter is not a function"

/-- The `Promise.all` over all configured ports: concatenate each
endpoint's candidates; any per-endpoint `TypeError` rejects the whole
collection. -/
def collectAllTargets : List HttpResult → Except String (List TargetAd)
  | [] => .ok []
  | r :: rest =>
      match collectFromEndpoint r with
      | .error e => .error e
      | .ok ts =>
          match collectAllTargets rest with
          | .error e => .error e
          | .ok more => .ok (ts ++ more)

/-- Whether an HTTP result resolved to valid JSON that is not an array. -/
def isNonArrayResponse : HttpResult → Bool
  | .response (some (.nonArray _)) => true
  | .response (some (.arr _)) => false
  | .response none => false
  | .netError => false
  | .timedOut => false

/-! ### The registry and `discover`'s reconciliation core (source lines 306-390)

The registry `cascades` is a JavaScript `Map`; it is modelled as an
association list with `Map.set` semantics (update in place preserving
order, append when fresh), which keeps keys distinct, so the list
length is the `Map` size.  WebSocket objects carry a tag `sid` so that
distinct connections to the same identity can be told apart; `connectCDP`,
`extractMetadata` and `captureCSS` outcomes are supplied by an
environment, since they depend on the remote process. -/

/-- A WebSocket object: its identity tag and whether
`readyState === WebSocket.OPEN`. -/
structure WsConn where
  sid : Nat
  openState : Bool
deriving DecidableEq, Repr

/-- The value `extractMetadata` returns on success, as `discover`
consumes it: `chatTitle` is already defaulted to a string by the
script, `url` is `window.location.href` (a string), `conversationId`
may be null, `contextId` is the context the script was found in. -/
structure MetaResult where
  chatTitle : String
  isActive : Bool
  conversationId : Option String
  url : String
  contextId : Option Nat
deriving DecidableEq, Repr

/-- The `cascade.metadata` record. -/
structure MetaRecord where
  windowTitle : Option String
  chatTitle : String
  isActive : Bool
  conversationId : Option String
  url : Option String
deriving DecidableEq, Repr

/-- A content snapshot as returned by `captureHTML`: the serialized
element plus the two computed body styles. -/
structure Snap where
  html : String
  bodyBg : String
  bodyColor : String
deriving DecidableEq, Repr

/-- One registry entry (`cascades` value). -/
structure Cascade where
  id : String
  ws : WsConn
  rootContextId : Option Nat
  metadata : MetaRecord
  snapshot : Option Snap
  css : String
  snapshotHash : Option String
deriving DecidableEq, Repr

/-- One element of the `cascade_list` payload built by
`broadcastCascadeList`. -/
structure CascadeSummary where
  id : String
  title : String
  window : Option String
  projectName : String
  active : Bool
deriving DecidableEq, Repr

/-- A message pushed to subscribers. -/
inductive BroadcastMsg where
  | cascadeList (cascades : List CascadeSummary)
  | snapshotUpdate (cascadeId : String)
deriving DecidableEq, Repr

/-- `extractProjectName` (source lines 393-418): split the window title
on `" - "`; with three or more parts take the second-to-last, with two
take the first, otherwise the whole title; a missing or empty title
gives the empty string. -/
def extractProjectName (title : Option String) : String :=
  match title with
  | none => ""
  | some t =>
      if t == "" then ""
      else
        let parts := t.splitOn " - "
        if parts.length ≥ 3 then parts.getD (parts.length - 2) ""
        else if parts.length == 2 then parts.getD 0 ""
        else t

/-- The `cascade_list` broadcast payload over a registry. -/
def cascadeListMsg (reg : List (String × Cascade)) : BroadcastMsg :=
  .cascadeList (reg.map (fun p => {
    id := p.2.id,
    title := p.2.metadata.chatTitle,
    window := p.2.metadata.windowTitle,
    projectName := extractProjectName p.2.metadata.windowTitle,
    active := p.2.metadata.isActive }))

/-- `Map.set`: overwrite in place when the key exists, append otherwise. -/
def regSet (m : List (String × Cascade)) (k : String) (v : Cascade) :
    List (String × Cascade) :=
  if m.any (fun p => p.1 == k) then
    m.map (fun p => if p.1 == k then (k, v) else p)
  else m ++ [(k, v)]

/-- `Map.get`. -/
def regGet (m : List (String × Cascade)) (k : String) : Option Cascade :=
  (m.find? (fun p => p.1 == k)).map Prod.snd

/-- `Map.has`. -/
def regHas (m : List (String × Cascade)) (k : String) : Bool :=
  m.any (fun p => p.1 == k)

/-- The remote-dependent outcomes one discovery cycle consumes:
metadata refresh on an existing session (`none` = `extractMetadata`
returned null), connection attempts (`none` = `connectCDP` threw),
metadata extraction on a fresh connection, the most-recent brain
directory, and the one-off CSS capture. -/
structure DiscoverEnv where
  refreshMeta : String → Option MetaResult
  connect : TargetAd → Option WsConn
  extractNew : TargetAd → Option MetaResult
  recentBrainDir : Option String
  captureCss : TargetAd → String

/-- The "new connection" path of `discover` (source lines 337-375):
connect, extract metadata, on success materialize a fresh entry (with
the brain-directory fallback for a missing conversation id); when
extraction fails the fresh socket is closed; when the connection
attempt throws the candidate is dropped.  Returns the updated
accumulator and the sids of sockets closed on this path. -/
def tryNewConnection (env : DiscoverEnv) (t : TargetAd) (id : String)
    (acc : List (String × Cascade)) : List (String × Cascade) × List Nat :=
  match env.connect t with
  | none => (acc, [])
  | some ws =>
      match env.extractNew t with
      | none => (acc, [ws.sid])
      | some m =>
          let conversationId := match m.conversationId with
            | some c => some c
            | none => env.recentBrainDir
          let casc : Cascade := {
            id := id,
            ws := ws,
            rootContextId := m.contextId,
            metadata := {
              windowTitle := t.title,
              chatTitle := m.chatTitle,
              isActive := m.isActive,
              conversationId := conversationId,
              url := if m.url == "" then none else some m.url },
            snapshot := none,
            css := env.captureCss t,
            snapshotHash := none }
          (regSet acc id casc, [])

/-- Per-candidate step of `discover` (source lines 318-376): compute
the identity hash; when the old registry holds that identity and its
socket is open, attempt a metadata refresh and on success keep the
entry (metadata merged, remembered context id updated); on refresh
failure, a closed socket, or a fresh identity, fall through to the
new-connection path. -/
def processTarget (old : List (String × Cascade)) (env : DiscoverEnv)
    (acc : List (String × Cascade)) (t : TargetAd) :
    List (String × Cascade) × List Nat :=
  let id := hashString t.webSocketDebuggerUrl
  match regGet old id with
  | some existing =>
      if existing.ws.openState then
        match env.refreshMeta id with
        | some m =>
            let merged : MetaRecord := {
              windowTitle := existing.metadata.windowTitle,
              chatTitle := m.chatTitle,
              isActive := m.isActive,
              conversationId := m.conversationId,
              url := some m.url }
            let existing2 := { existing with
              metadata := merged,
              rootContextId := match m.contextId with
                | some c => some c
                | none => existing.rootContextId }
            (regSet acc id existing2, [])
        | none => tryNewConnection env t id acc
      else tryNewConnection env t id acc
  | none => tryNewConnection env t id acc

/-- The observable outcome of one discovery cycle: the installed
registry, the sids of every socket the cycle closed, and the broadcasts
it emitted. -/
structure DiscoverResult where
  newReg : List (String × Cascade)
  closed : List Nat
  broadcasts : List BroadcastMsg

/-- One full reconciliation cycle over an already-collected candidate
list (source lines 315-389): process every candidate into a fresh
registry, close the socket of every old identity absent from it, then
broadcast a fresh listing exactly when the registry size changed. -/
def discover (old : List (String × Cascade)) (targets : List TargetAd)
    (env : DiscoverEnv) : DiscoverResult :=
  let step := targets.foldl (fun acc t =>
    let r := processTarget old env acc.1 t
    (r.1, acc.2 ++ r.2)) (([] : List (String × Cascade)), ([] : List Nat))
  let newReg := step.1
  let cleanupClosed := (old.filter (fun p => !(regHas newReg p.1))).map (fun p => p.2.ws.sid)
  let changed := old.length != newReg.length
  { newReg := newReg,
    closed := step.2 ++ cleanupClosed,
    broadcasts := if changed then [cascadeListMsg newReg] else [] }

/-- The sockets still live for one identity after a cycle: sockets
bound to that identity in the old or new registry that were open and
were not closed during the cycle, deduplicated by tag. -/
def liveSidsFor (old : List (String × Cascade)) (res : DiscoverResult)
    (id : String) : List Nat :=
  ((((old.filter (fun p => p.1 == id)).map (fun p => p.2.ws)) ++
    ((res.newReg.filter (fun p => p.1 == id)).map (fun p => p.2.ws)))
   |>.filter (fun w => w.openState && !(res.closed.contains w.sid))
   |>.map (fun w => w.sid)).eraseDups

/-! ### `updateSnapshots`, per entry (source lines 420-436)

Each polling round captures HTML through the entry's remembered
context (`captureHTML` resolves `null` when the context id is unset or
the capture fails); on a successful capture the fingerprint is
`hashString(snap.html)`, and only a fingerprint change stores the new
snapshot and emits a `snapshot_update` broadcast. -/

/-- One entry's snapshot update: given the `captureHTML` result
(`none` = no capture), store and broadcast exactly when the new
fingerprint differs from the stored one. -/
def updateSnapshotEntry (c : Cascade) (snap : Option Snap) :
    Cascade × Option BroadcastMsg :=
  match snap with
  | none => (c, none)
  | some s =>
      let hash := hashString s.html
      if some hash != c.snapshotHash then
        ({ c with snapshot := some s, snapshotHash := some hash },
         some (.snapshotUpdate c.id))
      else (c, none)

/-- A concrete registry entry used to instantiate general theorems. -/
def sampleCascade : Cascade := {
  id := "c0",
  ws := { sid := 1, openState := true },
  rootContextId := none,
  metadata := {
    windowTitle := none,
    chatTitle := "Agent",
    isActive := false,
    conversationId := none,
    url := none },
  snapshot := none,
  css := "",
  snapshotHash := none }

/-- A registry entry whose identity is the hash of `"ws://old"` and
whose socket (tag 1) is still open: the state before the discovery
cycle of interest. -/
def leakEntry : Cascade :=
  { sampleCascade with
    id := hashString "ws://old",
    ws := { sid := 1, openState := true } }

/-- The same candidate re-advertised in the next cycle: identical
transport address, hence identical identity. -/
def leakTarget : TargetAd :=
  { url := some "http://x/workbench.html",
    title := some "w",
    webSocketDebuggerUrl := "ws://old" }

/-- A cycle in which the metadata refresh on the still-open connection
fails, while a fresh connection (socket tag 2) and its metadata
extraction succeed. -/
def leakEnv : DiscoverEnv :=
  { refreshMeta := fun _ => none,
    connect := fun _ => some { sid := 2, openState := true },
    extractNew := fun _ => some
      { chatTitle := "t", isActive := true, conversationId := some "conv",
        url := "u", contextId := some 3 },
    recentBrainDir := none,
    captureCss := fun _ => "" }

/-! ## Helper lemmas -/

/-- `findIndex` + `splice(idx, 1)` removes exactly the first descriptor
satisfying the predicate, and is the identity when none does. -/
theorem removeDestroyedContext_eq_eraseP (cid : Nat) :
    ∀ ctxs : List CdpContext,
      removeDestroyedContext ctxs cid = ctxs.eraseP (fun c => c.id == cid)
  | [] => rfl
  | c :: rest => by
      have ih := removeDestroyedContext_eq_eraseP cid rest
      unfold removeDestroyedContext at ih ⊢
      by_cases h : (c.id == cid) = true
      · simp [List.findIdx?_cons, h]
      · rw [List.findIdx?_cons]
        simp only [h, if_false, List.findIdx?_start_succ, Nat.zero_add]
        rw [List.eraseP_cons_of_neg (by simpa using h)]
        cases hf : rest.findIdx? (fun x => x.id == cid) with
        | none =>
            rw [hf] at ih
            simp only [hf, Option.map_none']
            exact congrArg (List.cons c) ih
        | some i =>
            rw [hf] at ih
            simp only [hf, Option.map_some']
            exact congrArg (List.cons c) ih

/-! ## Claim theorems -/

/-- C8: a `Runtime.executionContextDestroyed` notification removes from
the session's context list exactly the first descriptor whose id
matches the notification's context id, and when no descriptor with
that id is present the list is left unchanged (and no error is
raised — the handler is total). -/
theorem C8_context_destroyed (s : Session) (cid : Nat) :
    (handleMessage s (destroyedFrame cid)).1.contexts =
      s.contexts.eraseP (fun c => c.id == cid) ∧
    ((∀ c ∈ s.contexts, c.id ≠ cid) →
      (handleMessage s (destroyedFrame cid)).1.contexts = s.contexts) := by
  have hmain : (handleMessage s (destroyedFrame cid)).1.contexts =
      s.contexts.eraseP (fun c => c.id == cid) := by
    simp only [handleMessage, destroyedFrame, applyNotification]
    simpa using removeDestroyedContext_eq_eraseP cid s.contexts
  refine ⟨hmain, fun habs => ?_⟩
  rw [hmain, List.eraseP_eq_self_iff]
  intro a ha
  simpa using habs a ha

/-- C8 witness: destroying context id 9 on a session that only knows
context 1 leaves the context list unchanged. -/
theorem C8_witness :
    (∀ c ∈ [({ id := 1, origin := "w" } : CdpContext)], c.id ≠ 9) ∧
    (handleMessage { idCounter := 2, pending := [], contexts := [{ id := 1, origin := "w" }] }
        (destroyedFrame 9)).1.contexts = [{ id := 1, origin := "w" }] :=
  ⟨by decide,
   (C8_context_destroyed
       { idCounter := 2, pending := [], contexts := [{ id := 1, origin := "w" }] } 9).2
     (by decide)⟩

/-- The stored fingerprint after a successful capture is the hash of
the captured html, whether or not the entry was updated. -/
theorem updateSnapshotEntry_hash (c : Cascade) (s : Snap) :
    ((updateSnapshotEntry c (some s)).1).snapshotHash = some (hashString s.html) := by
  by_cases h : some (hashString s.html) = c.snapshotHash
  · have hcond : ¬ ((some (hashString s.html) != c.snapshotHash) = true) := by
      simp [bne_iff_ne, h]
    simp only [updateSnapshotEntry, if_neg hcond]
    exact h.symm
  · have hcond : (some (hashString s.html) != c.snapshotHash) = true := by
      simp [bne_iff_ne, h]
    simp only [updateSnapshotEntry, if_pos hcond]

/-- A capture whose fingerprint equals the stored one changes nothing
and emits nothing. -/
theorem updateSnapshotEntry_noop (c : Cascade) (s : Snap)
    (h : c.snapshotHash = some (hashString s.html)) :
    updateSnapshotEntry c (some s) = (c, none) := by
  have hcond : ¬ ((some (hashString s.html) != c.snapshotHash) = true) := by
    simp [bne_iff_ne, h]
  simp only [updateSnapshotEntry, if_neg hcond]

/-- A capture whose fingerprint differs from the stored one replaces
the snapshot and fingerprint and emits the per-entry event. -/
theorem updateSnapshotEntry_store (c : Cascade) (s : Snap)
    (h : c.snapshotHash ≠ some (hashString s.html)) :
    updateSnapshotEntry c (some s) =
      ({ c with snapshot := some s, snapshotHash := some (hashString s.html) },
       some (.snapshotUpdate c.id)) := by
  have hcond : (some (hashString s.html) != c.snapshotHash) = true := by
    simp only [bne_iff_ne, ne_eq]
    exact fun hh => h hh.symm
  simp only [updateSnapshotEntry, if_pos hcond]

/-- C4: for every registry entry, capturing the same content payload in
two consecutive sampling rounds emits exactly one content-changed
event: the first round (whose fingerprint differs from the stored one)
emits and stores, the second round emits nothing; and in general an
event is emitted — and the snapshot and fingerprint replaced — exactly
when the newly computed fingerprint differs from the stored one. -/
theorem C4_fingerprint_dedup (c : Cascade) (s : Snap)
    (h : c.snapshotHash ≠ some (hashString s.html)) :
    (updateSnapshotEntry c (some s)).2 = some (.snapshotUpdate c.id) ∧
    (updateSnapshotEntry (updateSnapshotEntry c (some s)).1 (some s)).2 = none ∧
    ∀ (c2 : Cascade) (s2 : Snap),
      (c2.snapshotHash = some (hashString s2.html) →
        updateSnapshotEntry c2 (some s2) = (c2, none)) ∧
      (c2.snapshotHash ≠ some (hashString s2.html) →
        updateSnapshotEntry c2 (some s2) =
          ({ c2 with snapshot := some s2, snapshotHash := some (hashString s2.html) },
           some (.snapshotUpdate c2.id))) := by
  refine ⟨?_, ?_, fun c2 s2 => ⟨updateSnapshotEntry_noop c2 s2, updateSnapshotEntry_store c2 s2⟩⟩
  · rw [updateSnapshotEntry_store c s h]
  · rw [updateSnapshotEntry_noop _ s (updateSnapshotEntry_hash c s)]

/-- C4 witness: a fresh entry (no stored fingerprint) capturing
`"<div>"` twice emits on the first round only. -/
theorem C4_witness :
    (sampleCascade.snapshotHash ≠
      some (hashString ({ html := "<div>", bodyBg := "red", bodyColor := "black" } : Snap).html)) ∧
    (updateSnapshotEntry sampleCascade
        (some { html := "<div>", bodyBg := "red", bodyColor := "black" })).2 =
      some (.snapshotUpdate sampleCascade.id) :=
  ⟨by decide,
   (C4_fingerprint_dedup sampleCascade
       { html := "<div>", bodyBg := "red", bodyColor := "black" } (by decide)).1⟩

/-- C10: the fingerprint is computed from the `html` field only — two
successful captures with equal `html` strings leave the entry as the
first round left it and emit no second event, even when `bodyBg` and
`bodyColor` differ. -/
theorem C10_style_only_never_published (c : Cascade) (s1 s2 : Snap)
    (h : s1.html = s2.html) :
    updateSnapshotEntry (updateSnapshotEntry c (some s1)).1 (some s2) =
      ((updateSnapshotEntry c (some s1)).1, none) :=
  updateSnapshotEntry_noop _ s2 (by rw [updateSnapshotEntry_hash, h])

/-- C10 witness: same `html`, different body styles — second round is a
no-op with no event. -/
theorem C10_witness :
    (({ html := "<div>", bodyBg := "red", bodyColor := "black" } : Snap).html =
      ({ html := "<div>", bodyBg := "blue", bodyColor := "white" } : Snap).html) ∧
    updateSnapshotEntry
        (updateSnapshotEntry sampleCascade
          (some { html := "<div>", bodyBg := "red", bodyColor := "black" })).1
        (some { html := "<div>", bodyBg := "blue", bodyColor := "white" }) =
      ((updateSnapshotEntry sampleCascade
          (some { html := "<div>", bodyBg := "red", bodyColor := "black" })).1, none) :=
  ⟨rfl, C10_style_only_never_published sampleCascade _ _ rfl⟩

/-- Bridge between the source's boolean size comparison and the
propositional one. -/
theorem ite_bne_lists (a b : Nat) (l : List BroadcastMsg) :
    (if (a != b) = true then l else []) = if a = b then [] else l := by
  by_cases h : a = b <;> simp [h]

/-- C6: after a discovery cycle the Broadcast Hub receives a fresh
session listing exactly when the number of entries in the new registry
differs from the number in the old one — the changed flag is exactly a
cardinality comparison. -/
theorem C6_broadcast_iff_cardinality (old : List (String × Cascade))
    (targets : List TargetAd) (env : DiscoverEnv) :
    (discover old targets env).broadcasts =
      if old.length = (discover old targets env).newReg.length then []
      else [cascadeListMsg (discover old targets env).newReg] := by
  simp only [discover]
  exact ite_bne_lists _ _ _

/-- C9 counterexample: with a remembered root context id 5 whose direct
evaluation completes but reports the content not found, the search is
attempted while the remembered id is left in place (`some 5`), so the
stale context will be retried on a later cycle — the claim that a
failed direct attempt is cleared "for any reason" is false. -/
theorem C9_counterexample :
    (extractMetadata { rootContextId := some 5, contexts := [] }
        (fun _ => .ok (some { found := false }))).2 = none ∧
    (extractMetadata { rootContextId := some 5, contexts := [] }
        (fun _ => .ok (some { found := false }))).1.rootContextId = some 5 :=
  ⟨rfl, rfl⟩

/-- C9 (amended): the remembered context id is cleared before the
sequential search only when the direct attempt raises an error (the
call rejects); a direct attempt that completes — whether it reports
found or not-found — leaves the remembered id in place. -/
theorem C9_clear_only_on_error (cdp : CdpState) (oracle : Nat → EvalOutcome)
    (rid : Nat) (h : cdp.rootContextId = some rid) :
    (∀ e, oracle rid = .err e →
      (extractMetadata cdp oracle).1.rootContextId = none) ∧
    (∀ v, oracle rid = .ok v →
      (extractMetadata cdp oracle).1.rootContextId = some rid) := by
  constructor
  · intro e he
    simp [extractMetadata, h, he]
  · intro v hv
    cases v with
    | none => simp [extractMetadata, h, hv]
    | some w =>
        by_cases hw : w.found = true
        · simp [extractMetadata, h, hv, hw]
        · simp [extractMetadata, h, hv, hw]

/-- C9 witness: a rejected direct evaluation on remembered context 5
clears the remembered id. -/
theorem C9_witness :
    (({ rootContextId := some 5, contexts := [] } : CdpState).rootContextId = some 5) ∧
    (extractMetadata { rootContextId := some 5, contexts := [] }
        (fun _ => .err "boom")).1.rootContextId = none :=
  ⟨rfl,
   (C9_clear_only_on_error { rootContextId := some 5, contexts := [] }
       (fun _ => .err "boom") 5 rfl).1 "boom" rfl⟩

/-- C2 counterexample: a connection-termination event on a session with
calls 2 and 3 pending settles neither of them — no `Closed` (or any)
error reaches the callers and both slots stay pending, refuting the
claim that all pending calls fail together. -/
theorem C2_counterexample :
    (handleEvent { idCounter := 4, pending := [2, 3], contexts := [] } .closedEvt).2 = [] ∧
    (handleEvent { idCounter := 4, pending := [2, 3], contexts := [] }
        .closedEvt).1.pending = [2, 3] :=
  ⟨rfl, rfl⟩

/-- C2 (amended): when the connection terminates, pending calls are not
failed — `connectCDP` registers no close handler, so a close event
changes nothing and produces no outcome for any caller (pending slots
stay unresolved forever); a post-handshake socket error likewise
invokes no effective handler. -/
theorem C2_close_settles_nothing (s : Session) :
    handleEvent s .closedEvt = (s, []) ∧ handleEvent s .errorEvt = (s, []) :=
  ⟨rfl, rfl⟩

/-- C7 counterexample: one endpoint answers with a fine candidate list
and another with valid JSON that is not an array; the whole collection
phase rejects with a `TypeError` (`list.filter` is not a function), so
a malformed payload can abort the discovery cycle. -/
theorem C7_counterexample :
    collectAllTargets
        [.response (some (.arr [{ url := some "http://x/workbench.html" }])),
         .response (some (.nonArray "a JSON object"))] =
      .error "TypeError: list.filter is not a function" :=
  rfl

/-- The collection phase succeeds whenever no endpoint resolved to a
non-array JSON value. -/
theorem collectAllTargets_ok :
    ∀ rs : List HttpResult, (∀ r ∈ rs, isNonArrayResponse r = false) →
      ∃ ts, collectAllTargets rs = .ok ts
  | [], _ => ⟨[], rfl⟩
  | r :: rest, h => by
      obtain ⟨ts, hts⟩ :=
        collectAllTargets_ok rest (fun x hx => h x (List.mem_cons_of_mem _ hx))
      have hr := h r (List.mem_cons_self _ _)
      have hok : ∃ us, collectFromEndpoint r = .ok us := by
        cases r with
        | response p =>
            cases p with
            | none => exact ⟨[], rfl⟩
            | some v =>
                cases v with
                | arr items => exact ⟨items.filter isWorkbench, rfl⟩
                | nonArray d => simp [isNonArrayResponse] at hr
        | netError => exact ⟨[], rfl⟩
        | timedOut => exact ⟨[], rfl⟩
      obtain ⟨us, hus⟩ := hok
      exact ⟨us ++ ts, by simp [collectAllTargets, hus, hts]⟩

/-- C7 (amended): a network error, a timeout, or a body that fails JSON
parsing makes the endpoint contribute zero candidates without failing
the cycle, and the collection phase succeeds whenever no endpoint
resolved to a non-array JSON value; a payload that parses to a
non-array value, however, aborts the whole cycle with a `TypeError`. -/
theorem C7_error_endpoints_contribute_nothing (rs : List HttpResult)
    (h : ∀ r ∈ rs, isNonArrayResponse r = false) :
    (∃ ts, collectAllTargets rs = .ok ts) ∧
    collectFromEndpoint .netError = .ok [] ∧
    collectFromEndpoint .timedOut = .ok [] ∧
    collectFromEndpoint (.response none) = .ok [] ∧
    ∀ d, collectFromEndpoint (.response (some (.nonArray d))) =
      .error "TypeError: list.filter is not a function" :=
  ⟨collectAllTargets_ok rs h, rfl, rfl, rfl, fun _ => rfl⟩

/-- Pending ids strictly below a bound never match a reply for the bound. -/
theorem filter_beq_eq_nil {l : List Nat} {n : Nat} (h : ∀ j ∈ l, j < n) :
    l.filter (fun p => p == n) = [] := by
  rw [List.filter_eq_nil_iff]
  intro a ha
  simp only [beq_iff_eq]
  exact Nat.ne_of_lt (h a ha)

/-- Pending ids strictly below a bound all survive deregistration for the bound. -/
theorem filter_bne_eq_self {l : List Nat} {n : Nat} (h : ∀ j ∈ l, j < n) :
    l.filter (fun p => p != n) = l := by
  rw [List.filter_eq_self]
  intro a ha
  simp only [bne_iff_ne, ne_eq]
  exact Nat.ne_of_lt (h a ha)

/-- C5: two calls issued on one session receive the consecutive ids
`idCounter` and `idCounter + 1` (so distinct ids); delivering the
replies in reverse order of sending settles each caller with its own
matching result — correlation is by id, not by send order. -/
theorem C5_order_independent_correlation (s : Session)
    (m1 p1 m2 p2 : String) (r1 r2 : Option String)
    (hw : ∀ j ∈ s.pending, j < s.idCounter) :
    (callCDP s m1 p1).2 = s.idCounter ∧
    (callCDP (callCDP s m1 p1).1 m2 p2).2 = s.idCounter + 1 ∧
    (handleMessage (callCDP (callCDP s m1 p1).1 m2 p2).1
        { id := some (s.idCounter + 1), error := none, result := r2 }).2 =
      [.resolved (s.idCounter + 1) r2] ∧
    (handleMessage
        (handleMessage (callCDP (callCDP s m1 p1).1 m2 p2).1
          { id := some (s.idCounter + 1), error := none, result := r2 }).1
        { id := some s.idCounter, error := none, result := r1 }).2 =
      [.resolved s.idCounter r1] := by
  have hw1 : ∀ j ∈ s.pending, j < s.idCounter + 1 :=
    fun j hj => Nat.lt_succ_of_lt (hw j hj)
  have hfilter2 :
      ((s.pending ++ [s.idCounter]) ++ [s.idCounter + 1]).filter
          (fun p => p == s.idCounter + 1) = [s.idCounter + 1] := by
    rw [List.filter_append, List.filter_append]
    rw [filter_beq_eq_nil hw1]
    simp [Nat.ne_of_lt (Nat.lt_succ_self s.idCounter)]
  have hkeep :
      ((s.pending ++ [s.idCounter]) ++ [s.idCounter + 1]).filter
          (fun p => p != s.idCounter + 1) = s.pending ++ [s.idCounter] := by
    rw [List.filter_append, List.filter_append]
    rw [filter_bne_eq_self hw1]
    simp [Nat.ne_of_lt (Nat.lt_succ_self s.idCounter)]
  have hfilter1 :
      (s.pending ++ [s.idCounter]).filter (fun p => p == s.idCounter) =
        [s.idCounter] := by
    rw [List.filter_append, filter_beq_eq_nil hw]
    simp
  refine ⟨rfl, rfl, ?_, ?_⟩
  · simp only [callCDP, handleMessage]
    rw [hfilter2]
    rfl
  · simp only [callCDP, handleMessage]
    rw [hkeep, hfilter1]
    rfl

/-- A pending slot survives any frame that does not carry its id. -/
theorem pending_preserved (s : Session) (f : Frame) (i : Nat)
    (hp : i ∈ s.pending) (hne : f.id ≠ some i) :
    i ∈ (handleMessage s f).1.pending := by
  simp only [handleMessage]
  cases hfid : f.id with
  | none => simpa using hp
  | some fid =>
      simp only [List.mem_filter]
      refine ⟨hp, ?_⟩
      have hfi : fid ≠ i := by
        intro hcontra
        exact hne (by rw [hfid, hcontra])
      simp [bne_iff_ne, Ne.symm hfi]

/-- Every outcome a frame produces settles the caller whose id the
frame carries. -/
theorem outcome_ids (s : Session) (f : Frame) (o : Outcome)
    (ho : o ∈ (handleMessage s f).2) : f.id = some (outcomeId o) := by
  simp only [handleMessage] at ho
  cases hfid : f.id with
  | none => rw [hfid] at ho; simp at ho
  | some fid =>
      rw [hfid] at ho
      simp only [List.mem_map] at ho
      obtain ⟨p, hpmem, rfl⟩ := ho
      have hp : p = fid := by
        simpa [beq_iff_eq] using (List.mem_filter.mp hpmem).2
      cases herr : f.error <;> simp [herr, outcomeId, hp]

/-- A reply bearing a pending id resolves that caller whenever it arrives. -/
theorem late_reply_resolves (s : Session) (i : Nat) (r : Option String)
    (hp : i ∈ s.pending) :
    Outcome.resolved i r ∈
      (handleMessage s { id := some i, error := none, result := r }).2 := by
  simp only [handleMessage, List.mem_map]
  exact ⟨i, List.mem_filter.mpr ⟨hp, by simp⟩, rfl⟩

/-- Over any event sequence containing no reply for id `i`, the slot
for `i` stays pending and no outcome settles caller `i`. -/
theorem no_reply_keeps_pending (i : Nat) :
    ∀ (events : List WsEvent) (s : Session),
      i ∈ s.pending → (∀ e ∈ events, isReplyFor i e = false) →
      i ∈ (handleEvents s events).1.pending ∧
      ∀ o ∈ (handleEvents s events).2, outcomeId o ≠ i
  | [], _, hp, _ => ⟨hp, by intro o ho; simp [handleEvents] at ho⟩
  | e :: rest, s, hp, hnr => by
      have he := hnr e (List.mem_cons_self _ _)
      have hrest : ∀ x ∈ rest, isReplyFor i x = false :=
        fun x hx => hnr x (List.mem_cons_of_mem _ hx)
      have hp2 : i ∈ (handleEvent s e).1.pending := by
        cases e with
        | message f =>
            refine pending_preserved s f i hp ?_
            intro hcontra
            simp [isReplyFor, hcontra] at he
        | closedEvt => exact hp
        | errorEvt => exact hp
      obtain ⟨h1, h2⟩ := no_reply_keeps_pending i rest (handleEvent s e).1 hp2 hrest
      refine ⟨h1, ?_⟩
      intro o ho
      simp only [handleEvents, List.mem_append] at ho
      cases ho with
      | inl hl =>
          cases e with
          | message f =>
              have hid := outcome_ids s f o hl
              intro hcontra
              rw [hcontra] at hid
              simp [isReplyFor, hid] at he
          | closedEvt => simp [handleEvent] at hl
          | errorEvt => simp [handleEvent] at hl
      | inr hr => exact h2 o hr

/-- C1 counterexample: a session with call 2 pending receives an
unrelated reply, a context notification and a connection close — the
slot for 2 is still pending afterwards and no outcome (in particular
no timeout error) ever reached caller 2, refuting the claim that the
wait is bounded and ends in the slot's removal with a Timeout error. -/
theorem C1_counterexample :
    (handleEvents { idCounter := 3, pending := [2], contexts := [] }
        [.message { id := some 3, result := some "other" },
         .message { method := some "Runtime.executionContextCreated",
                    paramsContext := some { id := 7, origin := "w" } },
         .closedEvt]).1.pending = [2] ∧
    (handleEvents { idCounter := 3, pending := [2], contexts := [] }
        [.message { id := some 3, result := some "other" },
         .message { method := some "Runtime.executionContextCreated",
                    paramsContext := some { id := 7, origin := "w" } },
         .closedEvt]).2 = [] := by
  decide

/-- C1 (amended): the wait for a correlated reply is unbounded — a
call's pending slot is removed only when a reply bearing its id
arrives: over any event sequence without such a reply the slot stays
registered and the caller receives no outcome (no Timeout error
exists), and a matching reply arriving at any later point still
resolves the caller rather than being discarded. -/
theorem C1_no_bounded_wait (s : Session) (i : Nat) (events : List WsEvent)
    (hp : i ∈ s.pending) (hnr : ∀ e ∈ events, isReplyFor i e = false) :
    i ∈ (handleEvents s events).1.pending ∧
    (∀ o ∈ (handleEvents s events).2, outcomeId o ≠ i) ∧
    ∀ r : Option String,
      Outcome.resolved i r ∈
        (handleMessage (handleEvents s events).1
          { id := some i, error := none, result := r }).2 := by
  obtain ⟨h1, h2⟩ := no_reply_keeps_pending i events s hp hnr
  exact ⟨h1, h2, fun r => late_reply_resolves _ i r h1⟩

/-- C1 witness: call 2 stays pending across an unrelated reply and a
close event, and its late reply still resolves it. -/
theorem C1_witness :
    ((2 : Nat) ∈ ({ idCounter := 3, pending := [2], contexts := [] } : Session).pending ∧
      (∀ e ∈ [WsEvent.message { id := some 3, result := some "other" }, .closedEvt],
        isReplyFor 2 e = false)) ∧
    (2 ∈ (handleEvents { idCounter := 3, pending := [2], contexts := [] }
        [.message { id := some 3, result := some "other" }, .closedEvt]).1.pending ∧
    (∀ o ∈ (handleEvents { idCounter := 3, pending := [2], contexts := [] }
        [.message { id := some 3, result := some "other" }, .closedEvt]).2,
      outcomeId o ≠ 2) ∧
    ∀ r : Option String,
      Outcome.resolved 2 r ∈
        (handleMessage (handleEvents { idCounter := 3, pending := [2], contexts := [] }
            [.message { id := some 3, result := some "other" }, .closedEvt]).1
          { id := some 2, error := none, result := r }).2) :=
  ⟨⟨by decide, by decide⟩,
   C1_no_bounded_wait { idCounter := 3, pending := [2], contexts := [] } 2
     [.message { id := some 3, result := some "other" }, .closedEvt]
     (by decide) (by decide)⟩

/-- C5 witness: on a fresh session the two calls get ids 1 and 2, and
replies delivered in order [2, 1] resolve caller 2 with its result and
then caller 1 with its result. -/
theorem C5_witness :
    (∀ j ∈ ({} : Session).pending, j < ({} : Session).idCounter) ∧
    (callCDP {} "Runtime.enable" "e1").2 = 1 ∧
    (callCDP (callCDP {} "Runtime.enable" "e1").1 "Runtime.evaluate" "e2").2 = 1 + 1 ∧
    (handleMessage (callCDP (callCDP {} "Runtime.enable" "e1").1 "Runtime.evaluate" "e2").1
        { id := some (1 + 1), error := none, result := some "b" }).2 =
      [.resolved (1 + 1) (some "b")] ∧
    (handleMessage
        (handleMessage (callCDP (callCDP {} "Runtime.enable" "e1").1 "Runtime.evaluate" "e2").1
          { id := some (1 + 1), error := none, result := some "b" }).1
        { id := some 1, error := none, result := some "a" }).2 =
      [.resolved 1 (some "a")] :=
  ⟨by decide,
   C5_order_independent_correlation {} "Runtime.enable" "e1" "Runtime.evaluate" "e2"
     (some "a") (some "b") (by decide)⟩

/-- C7 witness: a cycle over a failing, a timing-out, an unparseable
and an empty-list endpoint succeeds. -/
theorem C7_witness :
    (∀ r ∈ [HttpResult.netError, .timedOut, .response none, .response (some (.arr []))],
      isNonArrayResponse r = false) ∧
    ∃ ts, collectAllTargets
        [HttpResult.netError, .timedOut, .response none, .response (some (.arr []))] =
      .ok ts :=
  ⟨by decide,
   (C7_error_endpoints_contribute_nothing
       [HttpResult.netError, .timedOut, .response none, .response (some (.arr []))]
       (by decide)).1⟩

set_option maxRecDepth 100000

/-- C3: evaluation of `discover` at the failing input.  Starting from a
registry holding the identity of `"ws://old"` with its socket (tag 1)
open, a cycle in which the metadata refresh fails and the reconnection
(tag 2) succeeds closes no socket at all — the cleanup loop only
closes identities absent from the new registry — so after the cycle
two open Transport Sessions (tags 1 and 2) exist for the one identity,
violating the at-most-one-live-session invariant. -/
theorem C3_two_live_sessions_after_refresh_failure :
    liveSidsFor [(hashString "ws://old", leakEntry)]
        (discover [(hashString "ws://old", leakEntry)] [leakTarget] leakEnv)
        (hashString "ws://old") = [1, 2] ∧
    (discover [(hashString "ws://old", leakEntry)] [leakTarget] leakEnv).closed = [] := by
  constructor
  · decide
  · decide
